import Mathlib

/-!
Verification development for the gemini-batch CLI.

The repository submits JSONL batch jobs to the Gemini API, tracks their
status and downloads results.  Pure logic from `src/gemini.ts`,
`src/processor.ts`, `src/types.ts` and the `src/command` handlers is
embedded shallowly below: remote calls become explicit environment
parameters (`none` models a thrown request error), fallible code returns
`Except`/`Option`, and the list of remote operations a call performs is
returned alongside its result.

The concurrency scheduler (`processInputs`), the per-job polling monitor
and the backoff logic are described by the repository's specification and
invoked from `src/command/file.ts` (`handleJobSubmit`), but their
implementation file is not part of the source tree; those definitions are
modelled from the specification text and are marked as such in their doc
comments.
-/

namespace GeminiBatch

/-- From src/types.ts: the `BatchJob` interface.  Optional fields become
`Option`. -/
structure BatchJob where
  id : String
  status : String
  inputFileId : Option String
  outputFileId : Option String
  createdAt : Option Nat
  completedAt : Option Nat
  deriving Repr, DecidableEq

/-- From src/types.ts: the `BatchJobResult` interface (`jobId`, `success`,
optional `outputFilePath`). -/
structure BatchJobResult where
  jobId : String
  success : Bool
  outputFilePath : Option String
  deriving Repr, DecidableEq

/-- From src/gemini.ts `normalizeStatus`: lowercase the raw status and
replace whitespace and hyphens with underscores
(`status.toLowerCase().replace(/[\s-]/g, "_")`), expressed character by
character over the string's data. -/
def normalizeStatus (status : String) : String :=
  String.mk (status.data.map (fun c =>
    let l := c.toLower
    if l.isWhitespace || l = '-' then '_' else l))

/-- The fixed status vocabulary named by the specification:
created, queued, running, succeeded, failed, cancelled, expired, unknown. -/
def statusVocab : List String :=
  ["created", "queued", "running", "succeeded", "failed", "cancelled",
   "expired", "unknown"]

/-- From src/gemini.ts `checkBatchStatus`: the remote lookup either throws
(`resp = none`, the catch branch returns null) or yields a job whose
`state` field may be absent (defaulted to "unknown" before normalizing). -/
def checkBatchStatus (resp : Option (Option String)) : Option String :=
  match resp with
  | none => none
  | some st => some (normalizeStatus (st.getD "unknown"))

/-- The fields of the raw job object returned by the remote
`batches.create` / `batches.get` calls that src/gemini.ts reads:
`name` and the possibly missing `state`. -/
structure RawJob where
  name : String
  state : Option String
  deriving Repr, DecidableEq

/-- From src/gemini.ts `createBatchJob`: the remote create call either
throws (`resp = none`, caught and turned into `null`) or returns a raw
job, which is repackaged into a `BatchJob` whose `id` is the remote
`name` and whose status defaults to "created". -/
def createBatchJob (inputFileId : String) (now : Nat) (resp : Option RawJob) :
    Option BatchJob :=
  match resp with
  | none => none
  | some job =>
    some { id := job.name
           status := normalizeStatus (job.state.getD "created")
           inputFileId := some inputFileId
           outputFileId := none
           createdAt := some now
           completedAt := none }

/-- From src/command/job.ts `handleJobDownload`: `jobId.split("/").pop()`,
the last `/`-separated segment of the job id, i.e. the characters after
the final `/` (the whole id when no `/` occurs). -/
def lastSegment (jobId : String) : String :=
  String.mk ((jobId.data.reverse.takeWhile (fun c => c ≠ '/')).reverse)

/-- From src/command/job.ts `handleJobDownload`: the default download file
name, built from the invocation's unix-second timestamp and the job id
(`Math.floor(Date.now() / 1000)` followed by the last id segment). -/
def downloadFileName (nowSec : Nat) (jobId : String) : String :=
  Nat.repr nowSec ++ "_" ++ lastSegment jobId ++ ".jsonl"

/-- From the earlier `handleJobDownload` revision in src/command/file.ts:
the time-independent result file name derived from the job id alone. -/
def resultsFileName (jobId : String) : String :=
  lastSegment jobId ++ "_results.jsonl"

/-- Right cancellation for string concatenation, via the underlying
character lists. -/
theorem string_append_right_cancel_iff (a b c : String) :
    a ++ c = b ++ c ↔ a = b := by
  constructor
  · intro h
    have hd : a.data ++ c.data = b.data ++ c.data := by
      simpa [String.data_append] using congrArg String.data h
    exact String.ext (List.append_cancel_right hd)
  · intro h
    rw [h]

/-! ### C5: status normalization vocabulary -/

/-- C5 counterexample: the claim says every provider raw status normalizes
into the eight-element vocabulary, naming "JOB_STATE_SUCCEEDED" as an
example; in fact `normalizeStatus` only lowercases and substitutes
underscores, so that raw state maps to "job_state_succeeded", which is
outside the vocabulary, and `checkBatchStatus` reports that string. -/
theorem normalizeStatus_counterexample :
    normalizeStatus "JOB_STATE_SUCCEEDED" = "job_state_succeeded" ∧
    "job_state_succeeded" ∉ statusVocab ∧
    checkBatchStatus (some (some "JOB_STATE_SUCCEEDED")) =
      some "job_state_succeeded" := by
  refine ⟨by decide, by decide, by decide⟩

/-- C5 amended: `normalizeStatus` lowercases and replaces whitespace and
hyphens with underscores; raw statuses already spelling a vocabulary word
normalize into the eight-element set, but the Gemini `JOB_STATE_*` raw
states (used verbatim elsewhere in the source) normalize to
`job_state_*` strings outside it, and a thrown status lookup yields
`none` rather than a vocabulary member. -/
theorem normalizeStatus_amended :
    normalizeStatus "JOB_STATE_SUCCEEDED" = "job_state_succeeded" ∧
    normalizeStatus "JOB_STATE_FAILED" = "job_state_failed" ∧
    normalizeStatus "JOB_STATE_CANCELLED" = "job_state_cancelled" ∧
    normalizeStatus "JOB_STATE_RUNNING" = "job_state_running" ∧
    normalizeStatus "JOB_STATE_QUEUED" = "job_state_queued" ∧
    normalizeStatus "JOB_STATE_PENDING" = "job_state_pending" ∧
    "job_state_succeeded" ∉ statusVocab ∧
    "job_state_failed" ∉ statusVocab ∧
    "job_state_cancelled" ∉ statusVocab ∧
    "job_state_running" ∉ statusVocab ∧
    "job_state_queued" ∉ statusVocab ∧
    "job_state_pending" ∉ statusVocab ∧
    normalizeStatus "SUCCEEDED" = "succeeded" ∧
    normalizeStatus "Running" = "running" ∧
    "succeeded" ∈ statusVocab ∧
    "running" ∈ statusVocab ∧
    checkBatchStatus none = none := by
  decide

/-! ### C7: createBatchJob never throws -/

/-- C7: `createBatchJob` converts a remote-reported creation failure into
`none` instead of an exception (it is a total function into `Option`),
and on success returns a job whose `id` is the remote-assigned name. -/
theorem createBatchJob_spec (fid : String) (now : Nat) (resp : Option RawJob) :
    (resp = none → createBatchJob fid now resp = none) ∧
    (∀ raw, resp = some raw →
      ∃ j, createBatchJob fid now resp = some j ∧ j.id = raw.name) := by
  constructor
  · rintro rfl
    rfl
  · rintro raw rfl
    exact ⟨_, rfl, rfl⟩

/-- C7 witness: the theorem applied at a thrown create call and at a
successful one. -/
theorem createBatchJob_spec_witness :
    createBatchJob "files/in1" 7 none = none ∧
    ∃ j, createBatchJob "files/in1" 7
        (some { name := "batches/b1", state := some "JOB_STATE_PENDING" }) = some j ∧
      j.id = "batches/b1" :=
  ⟨(createBatchJob_spec "files/in1" 7 none).1 rfl,
   (createBatchJob_spec "files/in1" 7
      (some { name := "batches/b1", state := some "JOB_STATE_PENDING" })).2 _ rfl⟩

/-! ### C6: download filename determinism -/

/-- C6 counterexample: the claim says the persisted filename is a
deterministic function of the job identifier alone, so two download
invocations for the same succeeded job would produce the same name; the
current `handleJobDownload` prefixes the unix-second timestamp, so two
invocations one second apart for job "batches/abc123" already disagree. -/
theorem downloadFileName_counterexample :
    downloadFileName 1000 "batches/abc123" = "1000_abc123.jsonl" ∧
    downloadFileName 1001 "batches/abc123" = "1001_abc123.jsonl" ∧
    downloadFileName 1000 "batches/abc123" ≠ downloadFileName 1001 "batches/abc123" := by
  refine ⟨by decide, by decide, by decide⟩

/-- C6 amended: the default download filename is a deterministic function
of the job identifier together with the invocation's unix-second
timestamp — for a fixed job id, two invocations produce the same name
exactly when their rendered timestamps coincide (the earlier revision's
`resultsFileName` remains a function of the job id alone). -/
theorem downloadFileName_amended (jobId : String) (t₁ t₂ : Nat) :
    (downloadFileName t₁ jobId = downloadFileName t₂ jobId ↔
      Nat.repr t₁ = Nat.repr t₂) ∧
    resultsFileName jobId = lastSegment jobId ++ "_results.jsonl" := by
  constructor
  · have hshape : ∀ t : Nat, downloadFileName t jobId =
        Nat.repr t ++ ("_" ++ lastSegment jobId ++ ".jsonl") := by
      intro t
      show Nat.repr t ++ "_" ++ lastSegment jobId ++ ".jsonl" = _
      rw [String.append_assoc, String.append_assoc, ← String.append_assoc "_"]
    rw [hshape, hshape]
    exact string_append_right_cancel_iff _ _ _
  · rfl

/-! ### submitJob (src/processor.ts) -/

/-- Character-level lowercase, as used for the extension comparison
`extname(input).toLowerCase()` in src/processor.ts. -/
def lowerString (s : String) : String :=
  String.mk (s.data.map Char.toLower)

/-- From node:path `extname`, as used by src/processor.ts: the extension
of the final path segment — the final `.` and what follows it — empty
when the segment has no `.` or when its only `.` is the leading
character (dotfiles). -/
def extname (p : String) : String :=
  let base := (lastSegment p).data
  let rev := base.reverse
  let pre := rev.takeWhile (fun c => c ≠ '.')
  let rest := rev.drop pre.length
  if rest.length = 0 then ""
  else if rest.length = 1 then ""
  else String.mk ('.' :: pre.reverse)

/-- Result of `fs.stat`: the one field src/processor.ts reads. -/
structure LocalStat where
  isFile : Bool
  deriving Repr, DecidableEq

/-- Remote file metadata read by the file-id branch of `submitJob`. -/
structure RemoteFile where
  state : String
  deriving Repr, DecidableEq

/-- One remote operation issued by `submitJob`, recorded in order. -/
inductive RemoteOp where
  | getFile (fileId : String)
  | upload (path : String)
  | createJob (fileId : String)
  deriving Repr, DecidableEq

/-- Environment for `submitJob`: `stat input = none` models `fs.stat`
throwing (missing path); `getFile` is the remote file lookup (`none` =
not found); `upload input = none` models the upload throwing; `create`
is the raw result of the remote `batches.create` call (`none` = thrown,
which `createBatchJob` catches into `null`). -/
structure SubmitEnv where
  stat : String → Option LocalStat
  getFile : String → Option RemoteFile
  upload : String → Option String
  create : String → Option RawJob

/-- From src/processor.ts: the file-id test `input.startsWith("files/")`,
expressed character by character. -/
def isFileIdInput (input : String) : Bool :=
  input.data.take 6 = "files/".data

/-- From src/processor.ts `BatchProcessor.submitJob`: inputs starting with
"files/" are treated as remote file ids (validated remotely, no upload);
all other inputs are local paths — stat must name a regular file with a
case-insensitive ".jsonl" extension before the upload and job creation
happen.  Returns the thrown-or-ok outcome together with the remote
operations performed. -/
def submitJob (env : SubmitEnv) (now : Nat) (input : String) :
    Except String BatchJob × List RemoteOp :=
  if isFileIdInput input then
    match env.getFile input with
    | none => (Except.error ("File not found with ID: " ++ input),
        [RemoteOp.getFile input])
    | some file =>
      if file.state ≠ "ACTIVE" then
        (Except.error ("File " ++ input ++ " is not active. State: " ++ file.state),
          [RemoteOp.getFile input])
      else
        match createBatchJob input now (env.create input) with
        | none => (Except.error "Failed to create batch job",
            [RemoteOp.getFile input, RemoteOp.createJob input])
        | some j => (Except.ok j, [RemoteOp.getFile input, RemoteOp.createJob input])
  else
    match env.stat input with
    | none => (Except.error ("Cannot stat input path: " ++ input), [])
    | some st =>
      if st.isFile = false then
        (Except.error ("Input path is not a file: " ++ input), [])
      else if lowerString (extname input) ≠ ".jsonl" then
        (Except.error ("Input file must be a JSONL file: " ++ input), [])
      else
        match env.upload input with
        | none => (Except.error ("Error uploading file: " ++ input),
            [RemoteOp.upload input])
        | some fileId =>
          match createBatchJob fileId now (env.create fileId) with
          | none => (Except.error "Failed to create batch job",
              [RemoteOp.upload input, RemoteOp.createJob fileId])
          | some j => (Except.ok j, [RemoteOp.upload input, RemoteOp.createJob fileId])

/-! ### C8: submitJob validates before any remote call -/

/-- C8: for a local-path input (not a "files/" id, per the file-id branch
settled in the companion claim) that is missing, not a regular file, or
lacks a case-insensitive ".jsonl" extension, `submitJob` throws and
performs no remote operation at all — in particular no upload and no job
creation. -/
theorem submitJob_validates (env : SubmitEnv) (now : Nat) (input : String)
    (hni : isFileIdInput input = false)
    (hbad : env.stat input = none ∨
      (∃ st, env.stat input = some st ∧ st.isFile = false) ∨
      lowerString (extname input) ≠ ".jsonl") :
    (∃ e, (submitJob env now input).1 = Except.error e) ∧
    (submitJob env now input).2 = [] := by
  rw [submitJob, hni]
  simp only [Bool.false_eq_true, if_false]
  cases hstat : env.stat input with
  | none => exact ⟨⟨_, rfl⟩, rfl⟩
  | some st =>
    cases hf : st.isFile with
    | false => simp [hf]
    | true =>
      have hext : lowerString (extname input) ≠ ".jsonl" := by
        rcases hbad with h | ⟨st2, hst2, hf2⟩ | h
        · rw [hstat] at h
          exact absurd h (by simp)
        · rw [hstat] at hst2
          cases Option.some.inj hst2
          rw [hf] at hf2
          exact absurd hf2 (by simp)
        · exact h
      simp [hf, hext]

/-- C8 witness: a local input with the wrong extension is rejected with no
remote operations, even in an environment whose remote calls would all
succeed. -/
theorem submitJob_validates_witness :
    (∃ e, (submitJob
        ⟨fun _ => some ⟨true⟩, fun _ => none,
         fun _ => some "files/u1", fun _ => some ⟨"batches/j1", none⟩⟩
        0 "data.txt").1 = Except.error e) ∧
    (submitJob
        ⟨fun _ => some ⟨true⟩, fun _ => none,
         fun _ => some "files/u1", fun _ => some ⟨"batches/j1", none⟩⟩
        0 "data.txt").2 = [] :=
  submitJob_validates _ 0 "data.txt" (by decide)
    (Or.inr (Or.inr (by decide)))

/-! ### C10: the "files/" file-id branch of submitJob -/

/-- Branch analysis for the file-id path of `submitJob`: the operations
performed are the remote file lookup, possibly followed by job creation —
never an upload. -/
theorem submitJob_fileId_ops (env : SubmitEnv) (now : Nat) (input : String)
    (hfi : isFileIdInput input = true) :
    (submitJob env now input).2 = [RemoteOp.getFile input] ∨
    (submitJob env now input).2 = [RemoteOp.getFile input, RemoteOp.createJob input] := by
  rw [submitJob, hfi]
  simp only [if_true]
  split
  · exact Or.inl rfl
  · split
    · exact Or.inl rfl
    · split
      · exact Or.inr rfl
      · exact Or.inr rfl

/-- Branch analysis for the local-path side of `submitJob`: the operations
performed are nothing, an upload, or an upload followed by job creation —
never a remote file lookup. -/
theorem submitJob_localPath_ops (env : SubmitEnv) (now : Nat) (j : String)
    (hj : isFileIdInput j = false) :
    (submitJob env now j).2 = [] ∨
    (submitJob env now j).2 = [RemoteOp.upload j] ∨
    ∃ fid, (submitJob env now j).2 = [RemoteOp.upload j, RemoteOp.createJob fid] := by
  rw [submitJob, hj]
  simp only [Bool.false_eq_true, if_false]
  split
  · exact Or.inl rfl
  · split
    · exact Or.inl rfl
    · split
      · exact Or.inl rfl
      · split
        · exact Or.inr (Or.inl rfl)
        · split
          · exact Or.inr (Or.inr ⟨_, rfl⟩)
          · exact Or.inr (Or.inr ⟨_, rfl⟩)

/-- C10: an input beginning with "files/" is treated as a remote file id —
`submitJob` never uploads for it, ignores the local filesystem and the
upload environment entirely, throws when no remote file with that id
exists and when the remote file's state is not "ACTIVE"; inputs not
beginning with "files/" never trigger the remote file lookup. -/
theorem submitJob_fileId (env : SubmitEnv) (now : Nat) (input : String)
    (hfi : isFileIdInput input = true) :
    (∀ p, RemoteOp.upload p ∉ (submitJob env now input).2) ∧
    (∀ env2 : SubmitEnv, env2.getFile = env.getFile → env2.create = env.create →
      submitJob env2 now input = submitJob env now input) ∧
    (env.getFile input = none →
      ∃ e, (submitJob env now input).1 = Except.error e) ∧
    (∀ f, env.getFile input = some f → f.state ≠ "ACTIVE" →
      ∃ e, (submitJob env now input).1 = Except.error e) ∧
    (∀ j, isFileIdInput j = false →
      ∀ q, RemoteOp.getFile q ∉ (submitJob env now j).2) := by
  refine ⟨?_, ?_, ?_, ?_, ?_⟩
  · intro p hmem
    rcases submitJob_fileId_ops env now input hfi with h | h <;>
      rw [h] at hmem <;> simp at hmem
  · intro env2 hg hc
    rw [submitJob, submitJob, hfi]
    simp only [if_true]
    rw [hg, hc]
  · intro hnone
    rw [submitJob, hfi]
    simp only [if_true]
    rw [hnone]
    exact ⟨_, rfl⟩
  · intro f hsome hne
    rw [submitJob, hfi]
    simp only [if_true]
    rw [hsome]
    simp only [if_pos hne]
    exact ⟨_, rfl⟩
  · intro j hj q hmem
    rcases submitJob_localPath_ops env now j hj with h | h | ⟨fid, h⟩ <;>
      rw [h] at hmem <;> simp at hmem

/-- C10 witness: a file-id input whose remote file is not ACTIVE is
rejected by the theorem's inactive-state conjunct. -/
theorem submitJob_fileId_witness :
    ∃ e, (submitJob
        ⟨fun _ => none, fun _ => some ⟨"PROCESSING"⟩, fun _ => none, fun _ => none⟩
        0 "files/x1").1 = Except.error e :=
  (submitJob_fileId
      ⟨fun _ => none, fun _ => some ⟨"PROCESSING"⟩, fun _ => none, fun _ => none⟩
      0 "files/x1" (by decide)).2.2.2.1 ⟨"PROCESSING"⟩ rfl (by decide)

/-! ### The orchestration core, modelled from the specification

The scheduler (`processInputs`) and per-job monitor that
`handleJobSubmit` in src/command/file.ts invokes are not part of the
source tree; the definitions below are modelled from the specification
(sections 4.2, 4.3 and 8). -/

/-- Modelled from the spec: the missing `processInputs` scheduler's view
of one file's dispatch (upload → create job → hand off to the monitor).
Upload and creation failures are caught locally; a successfully created
job is driven by the monitor to a terminal `BatchJobResult`. -/
inductive DispatchOutcome where
  | uploadError
  | createError
  | monitored (result : BatchJobResult)
  deriving Repr, DecidableEq

/-- Modelled from the spec: the missing scheduler's per-file step — any
failure in upload or job creation is converted into a failed result with
the sentinel job id "unknown"; otherwise the monitor's terminal result
stands. -/
def processFile (env : String → DispatchOutcome) (file : String) :
    BatchJobResult :=
  match env file with
  | DispatchOutcome.uploadError => { jobId := "unknown", success := false, outputFilePath := none }
  | DispatchOutcome.createError => { jobId := "unknown", success := false, outputFilePath := none }
  | DispatchOutcome.monitored r => r

/-- Modelled from the spec: partition of the input list into consecutive
batches of size at most `limit` (fuel-driven so the definition is total;
the fuel is instantiated with the list length, which suffices whenever
`limit ≥ 1`). -/
def chunkGo (limit : Nat) : Nat → List String → List (List String)
  | _, [] => []
  | 0, _ :: _ => []
  | fuel + 1, x :: xs => (x :: xs).take limit :: chunkGo limit fuel ((x :: xs).drop limit)

/-- Modelled from the spec: the missing scheduler's batch partition of the
expanded input files. -/
def chunkList (limit : Nat) (files : List String) : List (List String) :=
  chunkGo limit files.length files

/-- Modelled from the spec: the missing `processInputs`
(`process(files, outputDir, concurrencyLimit)`) — batches are processed
in order and every file of a batch yields exactly one result.  The
output directory does not influence which results are produced, so the
model drops it. -/
def processInputs (env : String → DispatchOutcome) (files : List String)
    (limit : Nat) : List BatchJobResult :=
  ((chunkList limit files).map (fun b => b.map (processFile env))).flatten

/-- Joining the fuel-driven chunks recovers the original list whenever the
fuel covers the list length and the limit is positive. -/
theorem chunkGo_join (limit : Nat) (hlim : 1 ≤ limit) :
    ∀ fuel xs, xs.length ≤ fuel → (chunkGo limit fuel xs).flatten = xs := by
  intro fuel
  induction fuel with
  | zero =>
    intro xs hxs
    cases xs with
    | nil => rfl
    | cons x l => exact absurd hxs (by simp)
  | succ f ih =>
    intro xs hxs
    cases xs with
    | nil => rfl
    | cons x l =>
      have hdrop : ((x :: l).drop limit).length ≤ f := by
        rw [List.length_drop]
        omega
      calc (chunkGo limit (f + 1) (x :: l)).flatten
          = (x :: l).take limit ++ (chunkGo limit f ((x :: l).drop limit)).flatten := by
            rw [chunkGo]
            rw [List.flatten_cons]
        _ = (x :: l).take limit ++ (x :: l).drop limit := by rw [ih _ hdrop]
        _ = x :: l := List.take_append_drop _ _

/-- The chunk partition joins back to the input list. -/
theorem chunkList_join (limit : Nat) (files : List String) (hlim : 1 ≤ limit) :
    (chunkList limit files).flatten = files :=
  chunkGo_join limit hlim files.length files (Nat.le_refl _)

/-! ### C1: one result per input file, failures isolated -/

/-- C1: with a positive concurrency limit and a non-empty file list, the
modelled `processInputs` produces exactly the per-file results in input
order — in particular one result per input file — and a file whose
upload or job creation fails contributes the failed sentinel result with
job id "unknown" without disturbing any sibling's result. -/
theorem processInputs_spec (env : String → DispatchOutcome)
    (files : List String) (limit : Nat)
    (hlim : 1 ≤ limit) (hne : files ≠ []) :
    processInputs env files limit = files.map (processFile env) ∧
    (processInputs env files limit).length = files.length ∧
    (∀ f, env f = DispatchOutcome.uploadError ∨ env f = DispatchOutcome.createError →
      processFile env f =
        { jobId := "unknown", success := false, outputFilePath := none }) := by
  have hmain : processInputs env files limit = files.map (processFile env) := by
    rw [processInputs]
    rw [← List.map_flatten]
    rw [chunkList_join limit files hlim]
  refine ⟨hmain, ?_, ?_⟩
  · rw [hmain, List.length_map]
  · intro f hf
    rcases hf with h | h <;> rw [processFile, h]

/-- C1 witness: three files with limit 2, the middle one failing at
upload, still yield one result each and the sentinel failed result for
the middle file. -/
theorem processInputs_spec_witness :
    processInputs
        (fun f => if f = "b.jsonl" then DispatchOutcome.uploadError
          else DispatchOutcome.monitored { jobId := "batches/ok", success := true, outputFilePath := some "r" })
        ["a.jsonl", "b.jsonl", "c.jsonl"] 2 =
      ["a.jsonl", "b.jsonl", "c.jsonl"].map (processFile
        (fun f => if f = "b.jsonl" then DispatchOutcome.uploadError
          else DispatchOutcome.monitored { jobId := "batches/ok", success := true, outputFilePath := some "r" })) ∧
    (processInputs
        (fun f => if f = "b.jsonl" then DispatchOutcome.uploadError
          else DispatchOutcome.monitored { jobId := "batches/ok", success := true, outputFilePath := some "r" })
        ["a.jsonl", "b.jsonl", "c.jsonl"] 2).length = 3 ∧
    processFile
        (fun f => if f = "b.jsonl" then DispatchOutcome.uploadError
          else DispatchOutcome.monitored { jobId := "batches/ok", success := true, outputFilePath := some "r" })
        "b.jsonl" =
      { jobId := "unknown", success := false, outputFilePath := none } := by
  have h := processInputs_spec
    (fun f => if f = "b.jsonl" then DispatchOutcome.uploadError
      else DispatchOutcome.monitored { jobId := "batches/ok", success := true, outputFilePath := some "r" })
    ["a.jsonl", "b.jsonl", "c.jsonl"] 2 (by decide) (by decide)
  exact ⟨h.1, h.2.1, h.2.2 "b.jsonl" (Or.inl (by decide))⟩

/-! ### C2: batches are dispatched strictly sequentially -/

/-- Modelled from the spec: observable scheduler events — dispatching a
file as part of batch `batchIdx`, and that file's unit reaching its
terminal `BatchJobResult`. -/
inductive SchedEvent where
  | dispatch (batchIdx : Nat) (file : String)
  | finish (batchIdx : Nat) (file : String) (r : BatchJobResult)
  deriving Repr, DecidableEq

/-- Modelled from the spec: the event trace of one batch — all of its
files are dispatched (concurrently, so before any completion), and the
scheduler then waits for every dispatched unit's terminal result. -/
def batchTrace (env : String → DispatchOutcome) (i : Nat) (b : List String) :
    List SchedEvent :=
  b.map (SchedEvent.dispatch i) ++
    b.map (fun f => SchedEvent.finish i f (processFile env f))

/-- Modelled from the spec: the scheduler's whole trace — batches are
processed strictly one after another, the batch index increasing. -/
def schedTraceGo (env : String → DispatchOutcome) :
    Nat → List (List String) → List SchedEvent
  | _, [] => []
  | i, b :: bs => batchTrace env i b ++ schedTraceGo env (i + 1) bs

/-- Modelled from the spec: the full trace of
`process(files, outputDir, concurrencyLimit)`. -/
def schedTrace (env : String → DispatchOutcome) (files : List String)
    (limit : Nat) : List SchedEvent :=
  schedTraceGo env 0 (chunkList limit files)

/-- Every dispatch event in a trace starting at batch index `i` carries an
index at least `i`. -/
theorem schedTraceGo_dispatch_ge (env : String → DispatchOutcome) :
    ∀ (bs : List (List String)) (i j : Nat) (f : String),
      SchedEvent.dispatch j f ∈ schedTraceGo env i bs → i ≤ j := by
  intro bs
  induction bs with
  | nil =>
    intro i j f hmem
    exact absurd hmem (by simp [schedTraceGo])
  | cons b rest ih =>
    intro i j f hmem
    rw [schedTraceGo, List.mem_append] at hmem
    rcases hmem with hmem | hmem
    · rw [batchTrace, List.mem_append] at hmem
      rcases hmem with hmem | hmem
      · rcases List.mem_map.mp hmem with ⟨g, _, hg⟩
        cases hg
        exact Nat.le_refl _
      · rcases List.mem_map.mp hmem with ⟨g, _, hg⟩
        cases hg
    · exact Nat.le_trans (Nat.le_succ i) (ih (i + 1) j f hmem)

/-- A trace splits at any batch boundary: the first `n` batches' events
come first, then the remaining batches' events, with indices continuing
at `i + n`. -/
theorem schedTraceGo_split (env : String → DispatchOutcome) :
    ∀ (n : Nat) (bs : List (List String)) (i : Nat),
      schedTraceGo env i bs =
        schedTraceGo env i (bs.take n) ++ schedTraceGo env (i + n) (bs.drop n) := by
  intro n
  induction n with
  | zero =>
    intro bs i
    simp [schedTraceGo]
  | succ m ih =>
    intro bs i
    cases bs with
    | nil => simp [schedTraceGo]
    | cons b rest =>
      rw [List.take_succ_cons, List.drop_succ_cons]
      rw [schedTraceGo, schedTraceGo, List.append_assoc]
      have harith : i + (m + 1) = i + 1 + m := by omega
      rw [harith, ← ih rest (i + 1)]

/-- Every file of the batch at position `n` has its finish event in the
trace of the first `n + 1` batches. -/
theorem schedTraceGo_finish_mem (env : String → DispatchOutcome) :
    ∀ (bs : List (List String)) (i n : Nat) (b : List String) (f : String),
      bs.getD n [] = b → f ∈ b →
      SchedEvent.finish (i + n) f (processFile env f) ∈ schedTraceGo env i bs := by
  intro bs
  induction bs with
  | nil =>
    intro i n b f hb hf
    have hb2 : b = [] := by simpa using hb.symm
    rw [hb2] at hf
    exact absurd hf (List.not_mem_nil f)
  | cons c rest ih =>
    intro i n b f hb hf
    rw [schedTraceGo, List.mem_append]
    cases n with
    | zero =>
      left
      have hcb : c = b := by simpa using hb
      rw [batchTrace, List.mem_append]
      right
      exact List.mem_map.mpr ⟨f, hcb ▸ hf, by simp⟩
    | succ m =>
      right
      have : rest.getD m [] = b := by simpa using hb
      have hmem := ih (i + 1) m b f this hf
      have harith : i + 1 + m = i + (m + 1) := by omega
      rw [harith] at hmem
      exact hmem

/-- C2: the scheduler partitions five files under limit 2 into batches of
sizes [2, 2, 1]; and for every batch position `n`, the trace decomposes
into the events of batches up to `n` followed by the later batches'
events — every unit of batch `n` reaches its terminal result inside the
first part while every dispatch of the second part belongs to a batch
index beyond `n`, so batch `n + 1` never dispatches before all of batch
`n` is terminal. -/
theorem schedTrace_sequential (env : String → DispatchOutcome)
    (files : List String) (limit : Nat) (n : Nat) :
    ((chunkList 2 ["f1", "f2", "f3", "f4", "f5"]).map List.length = [2, 2, 1]) ∧
    (schedTrace env files limit =
      schedTraceGo env 0 ((chunkList limit files).take (n + 1)) ++
        schedTraceGo env (n + 1) ((chunkList limit files).drop (n + 1))) ∧
    (∀ b f, (chunkList limit files).getD n [] = b → f ∈ b →
      SchedEvent.finish n f (processFile env f) ∈
        schedTraceGo env 0 ((chunkList limit files).take (n + 1))) ∧
    (∀ j f, SchedEvent.dispatch j f ∈
        schedTraceGo env (n + 1) ((chunkList limit files).drop (n + 1)) →
      n + 1 ≤ j) := by
  refine ⟨by decide, ?_, ?_, ?_⟩
  · rw [schedTrace]
    have h := schedTraceGo_split env (n + 1) (chunkList limit files) 0
    simpa using h
  · intro b f hb hf
    have hq : ((chunkList limit files).take (n + 1)).getD n [] = b := by
      rw [List.getD_eq_getElem?_getD, List.getElem?_take, if_pos (Nat.lt_succ_self n),
        ← List.getD_eq_getElem?_getD, hb]
    have h := schedTraceGo_finish_mem env ((chunkList limit files).take (n + 1))
      0 n b f hq hf
    simpa using h
  · intro j f hmem
    exact schedTraceGo_dispatch_ge env _ (n + 1) j f hmem

/-- C2 witness: with five files and limit 2, the theorem places batch 0's
terminal results inside the first trace segment and bounds the batch
index of every later dispatch, here instantiated at file "f1" of batch 0
and the dispatch of "f3" in batch 1. -/
theorem schedTrace_sequential_witness :
    SchedEvent.finish 0 "f1"
        (processFile (fun _ => DispatchOutcome.uploadError) "f1") ∈
      schedTraceGo (fun _ => DispatchOutcome.uploadError) 0
        ((chunkList 2 ["f1", "f2", "f3", "f4", "f5"]).take 1) ∧
    0 + 1 ≤ 1 :=
  ⟨(schedTrace_sequential (fun _ => DispatchOutcome.uploadError)
      ["f1", "f2", "f3", "f4", "f5"] 2 0).2.2.1 ["f1", "f2"] "f1"
      (by decide) (by decide),
   (schedTrace_sequential (fun _ => DispatchOutcome.uploadError)
      ["f1", "f2", "f3", "f4", "f5"] 2 0).2.2.2 1 "f3" (by decide)⟩

/-! ### The polling monitor, modelled from the specification -/

/-- Modelled from the spec: the failure-terminal statuses of the missing
monitor loop — failed, expired, cancelled, and provider-reported error. -/
def isFailureTerminalStatus (s : String) : Bool :=
  s = "failed" || s = "expired" || s = "cancelled" || s = "error"

/-- Modelled from the spec: the missing monitor's backoff update —
`interval = min(interval * 1.5, maxInterval)`. -/
def nextInterval (maxInterval i : ℚ) : ℚ :=
  min (i * (3 / 2)) maxInterval

/-- Modelled from the spec: what one monitor run observably did — the
terminal result if one was reached within the observed polls (`none`
models the loop still running when observations stop), how many output
fetches were attempted, and the sleep intervals in order. -/
structure MonitorTrace where
  result : Option BatchJobResult
  fetchAttempts : Nat
  sleeps : List ℚ
  deriving Repr, DecidableEq

/-- Modelled from the spec: the missing monitor loop over a finite window
of poll observations.  Each poll yields `none` (status unretrievable:
fail the job at once), a success terminal (fetch once; success iff the
fetch-and-write succeeds, persisting to `outputDir/jobId_results.jsonl`),
a failure terminal (fail at once, no fetch), or an in-progress status
(sleep for the current interval, multiply it by 1.5 capped at
`maxInterval`, poll again). -/
def monitorRun (jobId outputDir : String) (fetchOk : Bool) (maxInterval : ℚ) :
    ℚ → List (Option String) → MonitorTrace
  | _, [] => { result := none, fetchAttempts := 0, sleeps := [] }
  | _, none :: _ =>
    { result := some { jobId := jobId, success := false, outputFilePath := none }
      fetchAttempts := 0
      sleeps := [] }
  | i, some s :: rest =>
    if s = "succeeded" then
      { result := some
          { jobId := jobId
            success := fetchOk
            outputFilePath :=
              if fetchOk then some (outputDir ++ "/" ++ jobId ++ "_results.jsonl")
              else none }
        fetchAttempts := 1
        sleeps := [] }
    else if isFailureTerminalStatus s then
      { result := some { jobId := jobId, success := false, outputFilePath := none }
        fetchAttempts := 0
        sleeps := [] }
    else
      let t := monitorRun jobId outputDir fetchOk maxInterval
        (nextInterval maxInterval i) rest
      { result := t.result, fetchAttempts := t.fetchAttempts, sleeps := i :: t.sleeps }

/-- Modelled from the spec: the backoff interval after `n` in-progress
polls, starting from `base` with ceiling `maxInterval`. -/
def backoffSeq (base maxInterval : ℚ) (n : Nat) : ℚ :=
  (nextInterval maxInterval)^[n] base

/-! ### C3: exponential backoff with cap -/

/-- C3: after every poll that observes a non-terminal status the monitor
records the current interval as a sleep and continues with
`min(interval * 1.5, maxInterval)`; starting at 5 with cap 60 the
successive intervals are 5, 7.5, 11.25, 16.875, 25.3125, 37.96875,
56.953125, 60, 60, and no interval in the sequence ever exceeds 60. -/
theorem backoff_spec :
    (∀ (jobId outputDir : String) (fetchOk : Bool) (i : ℚ) (s : String)
        (rest : List (Option String)),
      s ≠ "succeeded" → isFailureTerminalStatus s = false →
      monitorRun jobId outputDir fetchOk 60 i (some s :: rest) =
        { result :=
            (monitorRun jobId outputDir fetchOk 60 (min (i * (3 / 2)) 60) rest).result
          fetchAttempts :=
            (monitorRun jobId outputDir fetchOk 60 (min (i * (3 / 2)) 60) rest).fetchAttempts
          sleeps :=
            i :: (monitorRun jobId outputDir fetchOk 60 (min (i * (3 / 2)) 60) rest).sleeps }) ∧
    ((List.range 9).map (backoffSeq 5 60) =
      [5, 15/2, 45/4, 135/8, 405/16, 1215/32, 3645/64, 60, 60]) ∧
    (∀ n, backoffSeq 5 60 n ≤ 60) := by
  have hstep : ∀ n, backoffSeq 5 60 (n + 1) = nextInterval 60 (backoffSeq 5 60 n) := by
    intro n
    rw [backoffSeq, backoffSeq, Function.iterate_succ_apply']
  have h0 : backoffSeq 5 60 0 = 5 := rfl
  have h1 : backoffSeq 5 60 1 = 15 / 2 := by
    rw [hstep 0, h0, nextInterval]
    norm_num [min_def]
  have h2 : backoffSeq 5 60 2 = 45 / 4 := by
    rw [hstep 1, h1, nextInterval]
    norm_num [min_def]
  have h3 : backoffSeq 5 60 3 = 135 / 8 := by
    rw [hstep 2, h2, nextInterval]
    norm_num [min_def]
  have h4 : backoffSeq 5 60 4 = 405 / 16 := by
    rw [hstep 3, h3, nextInterval]
    norm_num [min_def]
  have h5 : backoffSeq 5 60 5 = 1215 / 32 := by
    rw [hstep 4, h4, nextInterval]
    norm_num [min_def]
  have h6 : backoffSeq 5 60 6 = 3645 / 64 := by
    rw [hstep 5, h5, nextInterval]
    norm_num [min_def]
  have h7 : backoffSeq 5 60 7 = 60 := by
    rw [hstep 6, h6, nextInterval]
    norm_num [min_def]
  have h8 : backoffSeq 5 60 8 = 60 := by
    rw [hstep 7, h7, nextInterval]
    norm_num [min_def]
  refine ⟨?_, ?_, ?_⟩
  · intro jobId outputDir fetchOk i s rest hns hnf
    simp [monitorRun, hns, hnf, nextInterval]
  · have hr : List.range 9 = [0, 1, 2, 3, 4, 5, 6, 7, 8] := by decide
    rw [hr]
    simp only [List.map_cons, List.map_nil]
    rw [h0, h1, h2, h3, h4, h5, h6, h7, h8]
  · intro n
    induction n with
    | zero =>
      rw [h0]
      norm_num
    | succ m ihm =>
      rw [hstep m, nextInterval]
      exact min_le_right _ _

/-- C3 witness: one in-progress poll at status "queued" from interval 5
sleeps 5 and continues at min(5 * 1.5, 60). -/
theorem backoff_spec_witness :
    monitorRun "batches/w" "out" true 60 5 [some "queued"] =
      { result :=
          (monitorRun "batches/w" "out" true 60 (min (5 * (3 / 2)) 60) []).result
        fetchAttempts :=
          (monitorRun "batches/w" "out" true 60 (min (5 * (3 / 2)) 60) []).fetchAttempts
        sleeps :=
          5 :: (monitorRun "batches/w" "out" true 60 (min (5 * (3 / 2)) 60) []).sleeps } :=
  backoff_spec.1 "batches/w" "out" true 5 "queued" [] (by decide) (by decide)

/-! ### C4: in-progress polls followed by success -/

/-- C4: when the polled statuses are in-progress values followed by the
success terminal, the monitor produces a result for this job whose
success flag equals the fetch outcome — with the output persisted to
`outputDir/jobId_results.jsonl` exactly when the fetch succeeds — and
performs exactly one fetch attempt. -/
theorem monitor_success (jobId outputDir : String) (fetchOk : Bool) (maxI : ℚ) :
    ∀ (pre : List String) (i : ℚ),
      (∀ s ∈ pre, s ≠ "succeeded" ∧ isFailureTerminalStatus s = false) →
      (monitorRun jobId outputDir fetchOk maxI i
          (pre.map some ++ [some "succeeded"])).result =
        some { jobId := jobId
               success := fetchOk
               outputFilePath :=
                 if fetchOk then some (outputDir ++ "/" ++ jobId ++ "_results.jsonl")
                 else none } ∧
      (monitorRun jobId outputDir fetchOk maxI i
          (pre.map some ++ [some "succeeded"])).fetchAttempts = 1 := by
  intro pre
  induction pre with
  | nil =>
    intro i hpre
    constructor <;> simp [monitorRun]
  | cons s rest ih =>
    intro i hpre
    have hs := hpre s (by simp)
    have hrest : ∀ x ∈ rest, x ≠ "succeeded" ∧ isFailureTerminalStatus x = false :=
      fun x hx => hpre x (by simp [hx])
    simp only [List.map_cons, List.cons_append, monitorRun, hs.1, hs.2,
      Bool.false_eq_true, if_false]
    exact ih (nextInterval maxI i) hrest

/-- C4 witness: the status sequence queued, running, running, succeeded
with a successful fetch yields a successful result persisted to
`outdir/batches/j9_results.jsonl` after one fetch attempt. -/
theorem monitor_success_witness :
    (monitorRun "batches/j9" "outdir" true 60 5
        (["queued", "running", "running"].map some ++ [some "succeeded"])).result =
      some { jobId := "batches/j9"
             success := true
             outputFilePath :=
               if true then some ("outdir" ++ "/" ++ "batches/j9" ++ "_results.jsonl")
               else none } ∧
    (monitorRun "batches/j9" "outdir" true 60 5
        (["queued", "running", "running"].map some ++ [some "succeeded"])).fetchAttempts = 1 :=
  monitor_success "batches/j9" "outdir" true 60 ["queued", "running", "running"] 5
    (by decide)

/-! ### C9: immediate failure terminal -/

/-- C9: a job whose first polled status is failure-terminal (failed,
expired, cancelled, or provider-reported error) immediately yields a
failed result with no output path, zero fetch attempts and no further
polling or sleeping. -/
theorem monitor_failure_first (jobId outputDir : String) (fetchOk : Bool)
    (maxI i : ℚ) (s : String) (rest : List (Option String))
    (hs : isFailureTerminalStatus s = true) :
    monitorRun jobId outputDir fetchOk maxI i (some s :: rest) =
      { result := some { jobId := jobId, success := false, outputFilePath := none }
        fetchAttempts := 0
        sleeps := [] } := by
  have hns : s ≠ "succeeded" := by
    intro h
    rw [h] at hs
    exact absurd hs (by decide)
  simp [monitorRun, hns, hs]

/-- C9 witness: a first poll of "cancelled" fails the job at once with
zero fetch attempts. -/
theorem monitor_failure_first_witness :
    monitorRun "batches/c1" "out" true 60 5 [some "cancelled", some "running"] =
      { result := some { jobId := "batches/c1", success := false, outputFilePath := none }
        fetchAttempts := 0
        sleeps := [] } :=
  monitor_failure_first "batches/c1" "out" true 60 5 "cancelled"
    [some "running"] (by decide)

end GeminiBatch
